import Mathlib

/-!
Shallow embedding of the axvisor inter-VM console / hypercall subsystem
(`src/kernel/src/vmm/console.rs` and `src/kernel/src/vmm/hvc.rs`).

Host memory is modelled as a bump allocator with a capacity (the external
`axalloc` page allocator), together with a byte map and a log of freed
regions; the global `CONSOLE_CONNECTIONS` BTreeMap is modelled as an
association list with unique keys (insert replaces, remove erases), which is
observationally the map interface the source uses.  Machine integers are
modelled as `Nat`: none of the arithmetic in the translated code relies on
wrap-around.  Rust panics (`unwrap` on `None`, out-of-bounds slicing) are a
distinct outcome constructor, separate from `AxResult` errors.
-/

/-- Page granularity, from `memory_addr::PAGE_SIZE_4K`. -/
def PAGE_SIZE_4K : Nat := 4096

/-- Pointwise update of a byte map over `[base, base+len)`, the model of
`core::ptr::write_bytes`. -/
def writeBytes (m : Nat → Nat) (base len v : Nat) : Nat → Nat :=
  fun i => if base ≤ i ∧ i < base + len then v else m i

/-- The number of bytes the source actually allocates for a requested
buffer size: `num_frames * PAGE_SIZE_4K` with
`num_frames = (buffer_size + PAGE_SIZE_4K - 1) / PAGE_SIZE_4K`. -/
def allocBytesLen (buffer_size : Nat) : Nat :=
  (buffer_size + PAGE_SIZE_4K - 1) / PAGE_SIZE_4K * PAGE_SIZE_4K

/-- Model of the external `axalloc` global allocator plus host memory:
a bump pointer with a capacity, the byte contents, and a log of regions
returned to the allocator by `dealloc`. -/
structure HeapState where
  nextAddr : Nat
  capacity : Nat
  freed : List (Nat × Nat)
  mem : Nat → Nat

/-- `axalloc::global_allocator().alloc`: returns a fresh base address when
the capacity suffices, `none` (allocation failure) otherwise; on failure the
heap is untouched. -/
def HeapState.allocBytes (h : HeapState) (len : Nat) : Option (Nat × HeapState) :=
  if h.nextAddr + len ≤ h.capacity then
    some (h.nextAddr, { h with nextAddr := h.nextAddr + len })
  else
    none

/-- `ConsoleBuffer` from `console.rs`. -/
structure ConsoleBuffer where
  owner_vm_id : Nat
  peer_vm_id : Nat
  buffer_base : Nat
  buffer_size : Nat
deriving DecidableEq

/-- Error kinds of `axerrno` used by the translated code. -/
inductive AxError where
  | InvalidInput
  | NoMemory
  | NotFound
  | Unsupported
deriving DecidableEq

/-- `ConsoleBuffer::alloc` from `console.rs`: rounds the size up to whole
pages, asks the allocator for that many bytes, zero-fills them, and returns
the descriptor.  The descriptor stores the *requested* `buffer_size`, exactly
as the source does.  On allocator failure it returns `NoMemory` with the heap
untouched. -/
def ConsoleBuffer.alloc (h : HeapState) (buffer_size owner_vm_id peer_vm_id : Nat) :
    Except AxError ConsoleBuffer × HeapState :=
  match h.allocBytes (allocBytesLen buffer_size) with
  | none => (.error .NoMemory, h)
  | some (buffer_base, h1) =>
      (.ok { owner_vm_id := owner_vm_id, peer_vm_id := peer_vm_id,
             buffer_base := buffer_base, buffer_size := buffer_size },
       { h1 with mem := writeBytes h1.mem buffer_base (allocBytesLen buffer_size) 0 })

/-- `ConsoleBuffer::dealloc` from `console.rs`: returns the exact page range
computed from `buffer_size` to the allocator (logged in `freed`). -/
def ConsoleBuffer.dealloc (b : ConsoleBuffer) (h : HeapState) : HeapState :=
  { h with freed := h.freed ++ [(b.buffer_base, allocBytesLen b.buffer_size)] }

/-- `ConsoleConnectionEntry` from `console.rs`. -/
structure ConsoleConnectionEntry where
  buf1 : ConsoleBuffer
  buf2 : ConsoleBuffer
  ref_count : Nat
deriving DecidableEq

section AssocList

variable {κ α : Type} [DecidableEq κ]

/-- Association-list lookup: the model of `BTreeMap::get` /
`BTreeMap::contains_key`. -/
def alget : List (κ × α) → κ → Option α
  | [], _ => none
  | (k', v) :: rest, k => if k' = k then some v else alget rest k

/-- Removal of a key: the model of `BTreeMap::remove` (tables built by the
operations below hold each key at most once). -/
def alerase : List (κ × α) → κ → List (κ × α)
  | [], _ => []
  | (k', v) :: rest, k =>
      if k' = k then alerase rest k else (k', v) :: alerase rest k

/-- Insertion that replaces any existing binding of the key: the model of
`BTreeMap::insert`. -/
def alinsert (l : List (κ × α)) (k : κ) (v : α) : List (κ × α) :=
  (k, v) :: alerase l k

/-- In-place update of the binding of a key, if present: the model of the
`if let Some(entry) = map.get_mut(&k) { ... }` pattern. -/
def almodify : List (κ × α) → κ → (α → α) → List (κ × α)
  | [], _, _ => []
  | (k', v) :: rest, k, f =>
      if k' = k then (k, f v) :: almodify rest k f
      else (k', v) :: almodify rest k f

/-- Number of bindings of a key present in the table. -/
def alcount : List (κ × α) → κ → Nat
  | [], _ => 0
  | (k', _) :: rest, k => (if k' = k then 1 else 0) + alcount rest k

end AssocList

/-- The connection table type of `CONSOLE_CONNECTIONS`. -/
abbrev ConnTable := List ((Nat × Nat) × ConsoleConnectionEntry)

/-- The `entry.ref_count += 1` update of `establish_connection`. -/
def bumpRef (e : ConsoleConnectionEntry) : ConsoleConnectionEntry :=
  { e with ref_count := e.ref_count + 1 }

/-- The guarded `if entry.ref_count > 0 { entry.ref_count -= 1 }` update of
`remove_connection`. -/
def dropRef (e : ConsoleConnectionEntry) : ConsoleConnectionEntry :=
  { e with ref_count := if e.ref_count > 0 then e.ref_count - 1 else e.ref_count }

/-- The mutable state the two source files touch: the global connection
table, the host heap, the external IVC registry (a map from
`(publisher vm, key)` to the channel's `(base_gpa, size)`), and logs of the
calls made to the external VM object (unmaps, batched console device
updates and removals) and of the purely external protocol arms. -/
structure SysState where
  table : ConnTable
  heap : HeapState
  registry : List ((Nat × Nat) × (Nat × Nat))
  unmapLog : List (Nat × Nat)
  consoleUpdates : List (List Nat × List Nat × List Nat)
  consoleRemovals : List (List Nat × List Nat)
  externalOps : List Nat

namespace ConsoleConnectionManager

/-- `ConsoleConnectionManager::establish_connection` from `console.rs`.
If `(vm1, vm2)` is present: bump the refcount on `(vm1, vm2)` and, if
present, on `(vm2, vm1)`, then return clones of the existing buffers.
Otherwise allocate two fresh buffers and insert both mirror entries with
`ref_count = 1`.  The inner `unwrap` of the source (lookup after the bumps)
cannot fail because the key was just checked; its dead arm is mapped to a
`NotFound` error. -/
def establish_connection (st : SysState) (vm1 vm2 buffer_size : Nat) :
    Except AxError (ConsoleBuffer × ConsoleBuffer) × SysState :=
  if (alget st.table (vm1, vm2)).isSome then
    match alget (almodify (almodify st.table (vm1, vm2) bumpRef) (vm2, vm1) bumpRef)
        (vm1, vm2) with
    | some entry =>
        (.ok (entry.buf1, entry.buf2),
         { st with table :=
             almodify (almodify st.table (vm1, vm2) bumpRef) (vm2, vm1) bumpRef })
    | none =>
        (.error .NotFound,
         { st with table :=
             almodify (almodify st.table (vm1, vm2) bumpRef) (vm2, vm1) bumpRef })
  else
    match ConsoleBuffer.alloc st.heap buffer_size vm1 vm2 with
    | (.error e, h1) => (.error e, { st with heap := h1 })
    | (.ok buf1, h1) =>
        match ConsoleBuffer.alloc h1 buffer_size vm2 vm1 with
        | (.error e, h2) => (.error e, { st with heap := h2 })
        | (.ok buf2, h2) =>
            (.ok (buf1, buf2),
             { st with
               table := alinsert
                 (alinsert st.table (vm1, vm2)
                   { buf1 := buf1, buf2 := buf2, ref_count := 1 })
                 (vm2, vm1)
                 { buf1 := buf2, buf2 := buf1, ref_count := 1 },
               heap := h2 })

/-- `ConsoleConnectionManager::remove_connection` from `console.rs`.
Returns unchanged if `(vm1, vm2)` is absent; otherwise decrements both
mirror refcounts (never below zero), records the `(vm1, vm2)` count after
its decrement as `new_count`, deallocates both buffers and erases both
entries when `new_count = 0` — and then, replicating the final line of the
source verbatim, erases `(vm2, vm1)` unconditionally. -/
def remove_connection (st : SysState) (vm1 vm2 : Nat) : SysState :=
  match alget st.table (vm1, vm2) with
  | none => st
  | some e0 =>
      if (dropRef e0).ref_count = 0 then
        match alget (almodify (almodify st.table (vm1, vm2) dropRef) (vm2, vm1) dropRef)
            (vm1, vm2) with
        | some entry =>
            { st with
              table := alerase (alerase (alerase
                  (almodify (almodify st.table (vm1, vm2) dropRef) (vm2, vm1) dropRef)
                  (vm1, vm2)) (vm2, vm1)) (vm2, vm1),
              heap := entry.buf2.dealloc (entry.buf1.dealloc st.heap) }
        | none =>
            { st with
              table := alerase (alerase (alerase
                  (almodify (almodify st.table (vm1, vm2) dropRef) (vm2, vm1) dropRef)
                  (vm1, vm2)) (vm2, vm1)) (vm2, vm1) }
      else
        { st with
          table := alerase
            (almodify (almodify st.table (vm1, vm2) dropRef) (vm2, vm1) dropRef)
            (vm2, vm1) }

/-- `ConsoleConnectionManager::get_buffers` from `console.rs`. -/
def get_buffers (st : SysState) (vm1 vm2 : Nat) :
    Option (ConsoleBuffer × ConsoleBuffer) :=
  (alget st.table (vm1, vm2)).map fun entry => (entry.buf1, entry.buf2)

end ConsoleConnectionManager

/-- One call to the connection manager, for reasoning about all call
sequences. -/
inductive ConsoleOp where
  | establish (a b s : Nat)
  | remove (a b : Nat)

/-- Apply one connection-manager call to the state (the buffers returned by
`establish_connection` are irrelevant to the table evolution). -/
def applyOp (st : SysState) : ConsoleOp → SysState
  | .establish a b s => (ConsoleConnectionManager.establish_connection st a b s).2
  | .remove a b => ConsoleConnectionManager.remove_connection st a b

/-- Run a sequence of connection-manager calls. -/
def runOps (st : SysState) : List ConsoleOp → SysState
  | [] => st
  | op :: rest => runOps (applyOp st op) rest

/-! ## Hypercall dispatcher (`hvc.rs`) -/

/-- The hypercall opcode enumeration consumed via `axhvc::HyperCallCode`
(the enumeration itself lives outside the two source files; its variant set
is the one the dispatcher's `match` names, per the spec's opcode table). -/
inductive HyperCallCode where
  | HIVCPublishChannel
  | HIVCUnPublishChannel
  | HIVCSubscribChannel
  | HIVCUnSubscribChannel
  | HConEstablishConnect
  | HConUnEstablishConnect
  | HIVCSendIPI
deriving DecidableEq

/-- The outcome of one `execute()` call: a returned `HyperCallResult`
(`ok`/`err`), or a Rust panic (`unwrap` on `None`, out-of-bounds slice). -/
inductive HvcOutcome where
  | ok (code : Nat)
  | err (e : AxError)
  | panic
deriving DecidableEq

/-- Rust slice extraction `&args[lo..hi]` on a vector of
`args.length` words: yields the words when the range is in bounds, and a
panic (`none`) otherwise. -/
def sliceRange (args : List Nat) (lo hi : Nat) : Option (List Nat) :=
  if lo ≤ hi ∧ hi ≤ args.length then some ((args.drop lo).take (hi - lo))
  else none

/-- Modelled from the spec: `ivc::unpublish_channel` (the `ivc` module is
not among the source files).  Per §4.3/§6 it looks up and removes the
publisher's channel for `key`, returning its `(guest_address, size)`;
when the registry holds no such channel it returns nothing — on which the
dispatcher's `unwrap` crashes. -/
def unpublish_channel (reg : List ((Nat × Nat) × (Nat × Nat))) (vmId key : Nat) :
    Option ((Nat × Nat) × List ((Nat × Nat) × (Nat × Nat))) :=
  match alget reg (vmId, key) with
  | none => none
  | some v => some (v, alerase reg (vmId, key))

/-- The accumulation loop of the `HConEstablishConnect` arm: for each peer
id, establish the connection (mapping any failure to `NoMemory`, as the
source's `map_err` does) and push the `(owner, peer, address)` components of
the self→peer buffer and then of the peer→self buffer onto the three
accumulator lists. -/
def establishLoop (st : SysState) (selfId : Nat) (ids : List Nat)
    (acc : List Nat × List Nat × List Nat) :
    Except AxError (List Nat × List Nat × List Nat) × SysState :=
  match ids with
  | [] => (.ok acc, st)
  | dst_vm_id :: rest =>
      match ConsoleConnectionManager.establish_connection st selfId dst_vm_id 4096 with
      | (.error _, st') => (.error .NoMemory, st')
      | (.ok (buf_src_to_dst, buf_dst_to_src), st') =>
          establishLoop st' selfId rest
            (acc.1 ++ [buf_src_to_dst.owner_vm_id, buf_dst_to_src.owner_vm_id],
             acc.2.1 ++ [buf_src_to_dst.peer_vm_id, buf_dst_to_src.peer_vm_id],
             acc.2.2 ++ [buf_src_to_dst.buffer_base, buf_dst_to_src.buffer_base])

/-- The loop of the `HConUnEstablishConnect` arm: for each peer id, collect
the reporting pairs from the existing buffers if present, then
unconditionally remove the connection. -/
def unestablishLoop (st : SysState) (selfId : Nat) (ids : List Nat)
    (acc : List Nat × List Nat) : (List Nat × List Nat) × SysState :=
  match ids with
  | [] => (acc, st)
  | dst_vm_id :: rest =>
      let acc' :=
        match ConsoleConnectionManager.get_buffers st selfId dst_vm_id with
        | some (buf_src_to_dst, buf_dst_to_src) =>
            (acc.1 ++ [buf_src_to_dst.owner_vm_id, buf_dst_to_src.owner_vm_id],
             acc.2 ++ [buf_src_to_dst.peer_vm_id, buf_dst_to_src.peer_vm_id])
        | none => acc
      unestablishLoop (ConsoleConnectionManager.remove_connection st selfId dst_vm_id)
        selfId rest acc'

/-- `HyperCall::execute` from `hvc.rs`, for a decoded opcode.  The console
and unpublish arms are translated from the source; the publish, subscribe,
unsubscribe and send-IPI arms act only on external collaborators (guest
memory, the IVC registry's publish/subscribe bookkeeping, address-space
mappings, interrupt delivery) and are modelled from the spec as a logged
external step that reports success.  `selfId` is `self.vm.id()`, `args` the
six-word argument vector. -/
def executeStep (st : SysState) (selfId : Nat) (code : HyperCallCode)
    (args : List Nat) : HvcOutcome × SysState :=
  match code with
  | .HIVCUnPublishChannel =>
      let key := args.getD 0 0
      match unpublish_channel st.registry selfId key with
      | none => (.panic, st)
      | some ((base_gpa, size), reg') =>
          (.ok 0, { st with registry := reg',
                            unmapLog := st.unmapLog ++ [(base_gpa, size)] })
  | .HConEstablishConnect =>
      let num_ids := args.getD 1 0
      match sliceRange args 2 (2 + num_ids) with
      | none => (.panic, st)
      | some ids =>
          match establishLoop st selfId ids ([], [], []) with
          | (.error e, st') => (.err e, st')
          | (.ok acc, st') =>
              (.ok 0, { st' with consoleUpdates := st'.consoleUpdates ++ [acc] })
  | .HConUnEstablishConnect =>
      let num_ids := args.getD 1 0
      match sliceRange args 2 (2 + num_ids) with
      | none => (.panic, st)
      | some ids =>
          let r := unestablishLoop st selfId ids ([], [])
          (.ok 0, { r.2 with consoleRemovals := r.2.consoleRemovals ++ [r.1] })
  | .HIVCPublishChannel => (.ok 0, { st with externalOps := st.externalOps ++ [0] })
  | .HIVCSubscribChannel => (.ok 0, { st with externalOps := st.externalOps ++ [2] })
  | .HIVCUnSubscribChannel => (.ok 0, { st with externalOps := st.externalOps ++ [3] })
  | .HIVCSendIPI => (.ok 0, { st with externalOps := st.externalOps ++ [6] })

/-- Modelled from the spec: the wire decoding
`HyperCallCode::try_from(code as u32)` of the external `axhvc` crate.  The
spec fixes the enumeration but not the wire values; any injective assignment
represents it, and every statement below quantifies over the decoder's
failure set rather than over particular numbers. -/
def tryFromCode : Nat → Option HyperCallCode
  | 0 => some .HIVCPublishChannel
  | 1 => some .HIVCUnPublishChannel
  | 2 => some .HIVCSubscribChannel
  | 3 => some .HIVCUnSubscribChannel
  | 4 => some .HConEstablishConnect
  | 5 => some .HConUnEstablishConnect
  | 6 => some .HIVCSendIPI
  | _ => none

/-- `HyperCall::new` followed by `execute`, as the trap handler composes
them: an opcode the decoder rejects fails with `InvalidInput` before
`execute` ever runs, leaving the state untouched. -/
def handleHyperCall (st : SysState) (selfId : Nat) (code : Nat)
    (args : List Nat) : HvcOutcome × SysState :=
  match tryFromCode code with
  | none => (.err .InvalidInput, st)
  | some c => executeStep st selfId c args

/-! ## Association-list lemmas -/

section AssocListLemmas

variable {κ α : Type} [DecidableEq κ]

theorem alget_alerase (l : List (κ × α)) (k k' : κ) :
    alget (alerase l k) k' = if k' = k then none else alget l k' := by
  induction l with
  | nil => simp [alerase, alget]
  | cons p rest ih =>
      obtain ⟨k₀, v₀⟩ := p
      simp only [alerase, alget]
      split_ifs with h₀ <;> simp only [alget, ih] <;> split_ifs <;> simp_all

theorem alget_alinsert (l : List (κ × α)) (k k' : κ) (v : α) :
    alget (alinsert l k v) k' = if k' = k then some v else alget l k' := by
  simp only [alinsert, alget, alget_alerase]
  split_ifs <;> simp_all

theorem alget_almodify (l : List (κ × α)) (k k' : κ) (f : α → α) :
    alget (almodify l k f) k' =
      if k' = k then (alget l k').map f else alget l k' := by
  induction l with
  | nil => simp [almodify, alget]
  | cons p rest ih =>
      obtain ⟨k₀, v₀⟩ := p
      by_cases h₀ : k₀ = k
      · subst h₀
        by_cases h₁ : k' = k₀
        · subst h₁
          simp [almodify, alget, ih]
        · simp [almodify, alget, ih, h₁, Ne.symm h₁]
      · by_cases h₃ : k' = k
        · subst h₃
          by_cases h₂ : k₀ = k'
          · exact absurd h₂ h₀
          · simp [almodify, alget, ih, h₀, h₂]
        · by_cases h₂ : k₀ = k'
          · simp [almodify, alget, ih, h₀, h₂, h₃]
          · simp [almodify, alget, ih, h₀, h₂, h₃]

end AssocListLemmas

/-! ## Small helper lemmas about the entry updates and the allocator -/

theorem dropRef_ref_count (e : ConsoleConnectionEntry) :
    (dropRef e).ref_count = e.ref_count - 1 := by
  simp only [dropRef]
  split_ifs with h
  · rfl
  · omega

theorem dropRef_buf1 (e : ConsoleConnectionEntry) : (dropRef e).buf1 = e.buf1 := rfl

theorem dropRef_buf2 (e : ConsoleConnectionEntry) : (dropRef e).buf2 = e.buf2 := rfl

theorem bumpRef_buf1 (e : ConsoleConnectionEntry) : (bumpRef e).buf1 = e.buf1 := rfl

theorem bumpRef_buf2 (e : ConsoleConnectionEntry) : (bumpRef e).buf2 = e.buf2 := rfl

/-- Successful bump allocation, written explicitly. -/
theorem HeapState.allocBytes_pos (h : HeapState) (len : Nat)
    (hle : h.nextAddr + len ≤ h.capacity) :
    h.allocBytes len = some (h.nextAddr, { h with nextAddr := h.nextAddr + len }) := by
  unfold HeapState.allocBytes
  rw [if_pos hle]

/-- Failed bump allocation. -/
theorem HeapState.allocBytes_neg (h : HeapState) (len : Nat)
    (hgt : ¬ h.nextAddr + len ≤ h.capacity) :
    h.allocBytes len = none := by
  unfold HeapState.allocBytes
  rw [if_neg hgt]

/-- Successful allocation, written explicitly. -/
theorem ConsoleBuffer.alloc_succ (h : HeapState) (s o p : Nat)
    (hle : h.nextAddr + allocBytesLen s ≤ h.capacity) :
    ConsoleBuffer.alloc h s o p =
      (.ok { owner_vm_id := o, peer_vm_id := p,
             buffer_base := h.nextAddr, buffer_size := s },
       { h with nextAddr := h.nextAddr + allocBytesLen s,
                mem := writeBytes h.mem h.nextAddr (allocBytesLen s) 0 }) := by
  unfold ConsoleBuffer.alloc
  rw [HeapState.allocBytes_pos h (allocBytesLen s) hle]

/-- Failed allocation leaves the heap untouched and reports `NoMemory`. -/
theorem ConsoleBuffer.alloc_fail (h : HeapState) (s o p : Nat)
    (hgt : ¬ h.nextAddr + allocBytesLen s ≤ h.capacity) :
    ConsoleBuffer.alloc h s o p = (.error .NoMemory, h) := by
  unfold ConsoleBuffer.alloc
  rw [HeapState.allocBytes_neg h (allocBytesLen s) hgt]

/-- Whatever `ConsoleBuffer.alloc` returns on success: field contents and
heap evolution. -/
theorem ConsoleBuffer.alloc_ok_inv (h h' : HeapState) (s o p : Nat)
    (b : ConsoleBuffer) (hok : ConsoleBuffer.alloc h s o p = (.ok b, h')) :
    b.owner_vm_id = o ∧ b.peer_vm_id = p ∧ b.buffer_size = s ∧
    b.buffer_base = h.nextAddr ∧
    h.nextAddr + allocBytesLen s ≤ h.capacity ∧
    h' = { h with nextAddr := h.nextAddr + allocBytesLen s,
                  mem := writeBytes h.mem h.nextAddr (allocBytesLen s) 0 } := by
  by_cases hle : h.nextAddr + allocBytesLen s ≤ h.capacity
  · rw [ConsoleBuffer.alloc_succ h s o p hle] at hok
    have h1 := congrArg Prod.fst hok
    have h2 := congrArg Prod.snd hok
    simp only at h1 h2
    have hb : b = { owner_vm_id := o, peer_vm_id := p,
                    buffer_base := h.nextAddr, buffer_size := s } := by
      cases h1; rfl
    subst hb
    exact ⟨rfl, rfl, rfl, rfl, hle, h2.symm⟩
  · rw [ConsoleBuffer.alloc_fail h s o p hle] at hok
    exact absurd (congrArg Prod.fst hok) (by simp)

/-! ## Branch characterizations of the connection-manager operations -/

/-- A pair key and its mirror differ exactly when the two ids differ. -/
theorem pair_ne_swap {v1 v2 : Nat} (hne : v1 ≠ v2) :
    ((v1, v2) : Nat × Nat) ≠ (v2, v1) :=
  fun hp => hne (congrArg Prod.fst hp)

/-- `establish_connection` on an absent key, given the results of the two
allocations it performs. -/
theorem establish_fresh_general (st : SysState) (v1 v2 s : Nat)
    (B1 B2 : ConsoleBuffer) (H1 H2 : HeapState)
    (h : alget st.table (v1, v2) = none)
    (hA1 : ConsoleBuffer.alloc st.heap s v1 v2 = (.ok B1, H1))
    (hA2 : ConsoleBuffer.alloc H1 s v2 v1 = (.ok B2, H2)) :
    ConsoleConnectionManager.establish_connection st v1 v2 s =
      (.ok (B1, B2),
       { st with
         table := alinsert
           (alinsert st.table (v1, v2) { buf1 := B1, buf2 := B2, ref_count := 1 })
           (v2, v1) { buf1 := B2, buf2 := B1, ref_count := 1 },
         heap := H2 }) := by
  unfold ConsoleConnectionManager.establish_connection
  rw [h]
  rw [if_neg (by simp : ¬((none : Option ConsoleConnectionEntry).isSome = true))]
  split
  · next e1 h1 heq =>
      rw [hA1] at heq
      exact absurd (congrArg Prod.fst heq) (by simp)
  · next buf1 h1 heq =>
      rw [hA1] at heq
      have hb : B1 = buf1 := by
        have := congrArg Prod.fst heq
        simpa using this
      have hh : H1 = h1 := congrArg Prod.snd heq
      subst hb
      subst hh
      split
      · next e2 h2 heq2 =>
          rw [hA2] at heq2
          exact absurd (congrArg Prod.fst heq2) (by simp)
      · next buf2 h2 heq2 =>
          rw [hA2] at heq2
          have hb2 : B2 = buf2 := by
            have := congrArg Prod.fst heq2
            simpa using this
          have hh2 : H2 = h2 := congrArg Prod.snd heq2
          subst hb2
          subst hh2
          rfl

/-- `establish_connection` on an absent key with enough remaining capacity:
the fully explicit result. -/
theorem establish_fresh (st : SysState) (v1 v2 s : Nat)
    (h : alget st.table (v1, v2) = none)
    (hcap : st.heap.nextAddr + allocBytesLen s + allocBytesLen s ≤ st.heap.capacity) :
    ConsoleConnectionManager.establish_connection st v1 v2 s =
      (.ok ({ owner_vm_id := v1, peer_vm_id := v2,
              buffer_base := st.heap.nextAddr, buffer_size := s },
            { owner_vm_id := v2, peer_vm_id := v1,
              buffer_base := st.heap.nextAddr + allocBytesLen s, buffer_size := s }),
       { st with
         table := alinsert
           (alinsert st.table (v1, v2)
             { buf1 := { owner_vm_id := v1, peer_vm_id := v2,
                         buffer_base := st.heap.nextAddr, buffer_size := s },
               buf2 := { owner_vm_id := v2, peer_vm_id := v1,
                         buffer_base := st.heap.nextAddr + allocBytesLen s,
                         buffer_size := s },
               ref_count := 1 })
           (v2, v1)
           { buf1 := { owner_vm_id := v2, peer_vm_id := v1,
                       buffer_base := st.heap.nextAddr + allocBytesLen s,
                       buffer_size := s },
             buf2 := { owner_vm_id := v1, peer_vm_id := v2,
                       buffer_base := st.heap.nextAddr, buffer_size := s },
             ref_count := 1 },
         heap := { st.heap with
           nextAddr := st.heap.nextAddr + allocBytesLen s + allocBytesLen s,
           mem := writeBytes
             (writeBytes st.heap.mem st.heap.nextAddr (allocBytesLen s) 0)
             (st.heap.nextAddr + allocBytesLen s) (allocBytesLen s) 0 } }) := by
  have hle1 : st.heap.nextAddr + allocBytesLen s ≤ st.heap.capacity := by omega
  have hA1 := ConsoleBuffer.alloc_succ st.heap s v1 v2 hle1
  have hA2 := ConsoleBuffer.alloc_succ
    { st.heap with nextAddr := st.heap.nextAddr + allocBytesLen s,
                   mem := writeBytes st.heap.mem st.heap.nextAddr (allocBytesLen s) 0 }
    s v2 v1 (by simpa using hcap)
  exact establish_fresh_general st v1 v2 s _ _ _ _ h hA1 hA2

/-- `establish_connection` on a present key (distinct ids): bumps both
mirror refcounts and returns the stored buffers; the heap is untouched. -/
theorem establish_reuse (st : SysState) (v1 v2 s : Nat)
    (e : ConsoleConnectionEntry) (hne : v1 ≠ v2)
    (h : alget st.table (v1, v2) = some e) :
    ConsoleConnectionManager.establish_connection st v1 v2 s =
      (.ok (e.buf1, e.buf2),
       { st with table :=
           almodify (almodify st.table (v1, v2) bumpRef) (v2, v1) bumpRef }) := by
  have hm : alget (almodify (almodify st.table (v1, v2) bumpRef) (v2, v1) bumpRef)
      (v1, v2) = some (bumpRef e) := by
    rw [alget_almodify, if_neg (pair_ne_swap hne), alget_almodify, if_pos rfl, h]
    rfl
  unfold ConsoleConnectionManager.establish_connection
  rw [h]
  rw [if_pos (show (some e).isSome = true from rfl)]
  rw [hm]
  rfl

/-- `remove_connection` on an absent key is the identity. -/
theorem remove_absent (st : SysState) (v1 v2 : Nat)
    (h : alget st.table (v1, v2) = none) :
    ConsoleConnectionManager.remove_connection st v1 v2 = st := by
  unfold ConsoleConnectionManager.remove_connection
  rw [h]

/-- `remove_connection` when the entry is present and its decremented count
stays positive: decrements both mirrors, then (the final line of the source)
erases the mirror key anyway.  No deallocation happens. -/
theorem remove_pos (st : SysState) (v1 v2 : Nat)
    (e : ConsoleConnectionEntry)
    (h : alget st.table (v1, v2) = some e)
    (hrc : e.ref_count - 1 ≠ 0) :
    ConsoleConnectionManager.remove_connection st v1 v2 =
      { st with table :=
          (alerase
            (almodify (almodify st.table (v1, v2) dropRef) (v2, v1) dropRef)
            (v2, v1)) } := by
  have hcond : ¬ (dropRef e).ref_count = 0 := by
    rw [dropRef_ref_count]; exact hrc
  unfold ConsoleConnectionManager.remove_connection
  rw [h]
  simp only []
  rw [if_neg hcond]

/-- `remove_connection` when the entry is present (distinct ids) and its
decremented count reaches zero: both buffers are deallocated and both
entries erased. -/
theorem remove_zero (st : SysState) (v1 v2 : Nat)
    (e : ConsoleConnectionEntry) (hne : v1 ≠ v2)
    (h : alget st.table (v1, v2) = some e)
    (hrc : e.ref_count - 1 = 0) :
    ConsoleConnectionManager.remove_connection st v1 v2 =
      { st with
        table := alerase (alerase (alerase
            (almodify (almodify st.table (v1, v2) dropRef) (v2, v1) dropRef)
            (v1, v2)) (v2, v1)) (v2, v1),
        heap := e.buf2.dealloc (e.buf1.dealloc st.heap) } := by
  have hcond : (dropRef e).ref_count = 0 := by
    rw [dropRef_ref_count]; exact hrc
  have hm : alget (almodify (almodify st.table (v1, v2) dropRef) (v2, v1) dropRef)
      (v1, v2) = some (dropRef e) := by
    rw [alget_almodify, if_neg (pair_ne_swap hne), alget_almodify, if_pos rfl, h]
    rfl
  unfold ConsoleConnectionManager.remove_connection
  rw [h]
  simp only []
  rw [if_pos hcond]
  rw [hm]
  rfl

/-! ## The key-orientation invariant -/

/-- Every entry stored under key `(a, b)` has its first buffer oriented
a→b and its second b→a. -/
def Orient (t : ConnTable) : Prop :=
  ∀ a b e, alget t (a, b) = some e →
    e.buf1.owner_vm_id = a ∧ e.buf1.peer_vm_id = b ∧
    e.buf2.owner_vm_id = b ∧ e.buf2.peer_vm_id = a

theorem orient_nil : Orient [] := by
  intro a b e he
  simp [alget] at he

theorem orient_almodify_of (t : ConnTable) (k : Nat × Nat)
    (f : ConsoleConnectionEntry → ConsoleConnectionEntry)
    (hf : ∀ e, (f e).buf1 = e.buf1 ∧ (f e).buf2 = e.buf2)
    (ho : Orient t) : Orient (almodify t k f) := by
  intro a b e he
  rw [alget_almodify] at he
  by_cases hk : ((a, b) : Nat × Nat) = k
  · rw [if_pos hk] at he
    obtain ⟨e₀, he₀, hfe⟩ := Option.map_eq_some'.mp he
    obtain ⟨hb1, hb2⟩ := hf e₀
    have := ho a b e₀ he₀
    rw [← hfe, hb1, hb2]
    exact this
  · rw [if_neg hk] at he
    exact ho a b e he

theorem orient_alerase (t : ConnTable) (k : Nat × Nat)
    (ho : Orient t) : Orient (alerase t k) := by
  intro a b e he
  rw [alget_alerase] at he
  by_cases hk : ((a, b) : Nat × Nat) = k
  · rw [if_pos hk] at he
    exact absurd he (by simp)
  · rw [if_neg hk] at he
    exact ho a b e he

theorem orient_alinsert_pair (t : ConnTable) (v1 v2 : Nat)
    (B1 B2 : ConsoleBuffer) (ho : Orient t)
    (h1o : B1.owner_vm_id = v1) (h1p : B1.peer_vm_id = v2)
    (h2o : B2.owner_vm_id = v2) (h2p : B2.peer_vm_id = v1) :
    Orient (alinsert
      (alinsert t (v1, v2) { buf1 := B1, buf2 := B2, ref_count := 1 })
      (v2, v1) { buf1 := B2, buf2 := B1, ref_count := 1 }) := by
  intro a b e he
  rw [alget_alinsert] at he
  by_cases hk : ((a, b) : Nat × Nat) = (v2, v1)
  · rw [if_pos hk] at he
    obtain ⟨ha, hb⟩ : a = v2 ∧ b = v1 := Prod.mk.injEq .. ▸ hk
    cases he
    exact ⟨by rw [h2o, ha], by rw [h2p, hb], by rw [h1o, hb], by rw [h1p, ha]⟩
  · rw [if_neg hk] at he
    rw [alget_alinsert] at he
    by_cases hk2 : ((a, b) : Nat × Nat) = (v1, v2)
    · rw [if_pos hk2] at he
      obtain ⟨ha, hb⟩ : a = v1 ∧ b = v2 := Prod.mk.injEq .. ▸ hk2
      cases he
      exact ⟨by rw [h1o, ha], by rw [h1p, hb], by rw [h2o, hb], by rw [h2p, ha]⟩
    · rw [if_neg hk2] at he
      exact ho a b e he

/-- `establish_connection` preserves the orientation invariant, whatever
branch it takes. -/
theorem orient_establish (st : SysState) (v1 v2 s : Nat)
    (ho : Orient st.table) :
    Orient ((ConsoleConnectionManager.establish_connection st v1 v2 s).2.table) := by
  cases hC : alget st.table (v1, v2) with
  | some e =>
      have htab :
          ((ConsoleConnectionManager.establish_connection st v1 v2 s).2).table =
            almodify (almodify st.table (v1, v2) bumpRef) (v2, v1) bumpRef := by
        unfold ConsoleConnectionManager.establish_connection
        rw [hC]
        rw [if_pos (show (some e).isSome = true from rfl)]
        split <;> rfl
      rw [htab]
      exact orient_almodify_of _ _ _ (fun e => ⟨rfl, rfl⟩)
        (orient_almodify_of _ _ _ (fun e => ⟨rfl, rfl⟩) ho)
  | none =>
      rcases hA1 : ConsoleBuffer.alloc st.heap s v1 v2 with ⟨r1, H1⟩
      cases r1 with
      | error e1 =>
          have htab :
              ((ConsoleConnectionManager.establish_connection st v1 v2 s).2).table =
                st.table := by
            unfold ConsoleConnectionManager.establish_connection
            rw [hC]
            rw [if_neg (by simp : ¬((none : Option ConsoleConnectionEntry).isSome = true))]
            rw [hA1]
          rw [htab]
          exact ho
      | ok B1 =>
          rcases hA2 : ConsoleBuffer.alloc H1 s v2 v1 with ⟨r2, H2⟩
          cases r2 with
          | error e2 =>
              have htab :
                  ((ConsoleConnectionManager.establish_connection st v1 v2 s).2).table =
                    st.table := by
                unfold ConsoleConnectionManager.establish_connection
                rw [hC]
                rw [if_neg (by simp : ¬((none : Option ConsoleConnectionEntry).isSome = true))]
                rw [hA1]
                simp only []
                rw [hA2]
              rw [htab]
              exact ho
          | ok B2 =>
              rw [establish_fresh_general st v1 v2 s B1 B2 H1 H2 hC hA1 hA2]
              obtain ⟨h1o, h1p, -, -, -, -⟩ :=
                ConsoleBuffer.alloc_ok_inv st.heap H1 s v1 v2 B1 hA1
              obtain ⟨h2o, h2p, -, -, -, -⟩ :=
                ConsoleBuffer.alloc_ok_inv H1 H2 s v2 v1 B2 hA2
              exact orient_alinsert_pair st.table v1 v2 B1 B2 ho h1o h1p h2o h2p

/-- `remove_connection` preserves the orientation invariant, whatever
branch it takes. -/
theorem orient_remove (st : SysState) (v1 v2 : Nat)
    (ho : Orient st.table) :
    Orient ((ConsoleConnectionManager.remove_connection st v1 v2).table) := by
  cases hC : alget st.table (v1, v2) with
  | none =>
      rw [remove_absent st v1 v2 hC]
      exact ho
  | some e =>
      have hmod : Orient (almodify (almodify st.table (v1, v2) dropRef)
          (v2, v1) dropRef) :=
        orient_almodify_of _ _ _ (fun e => ⟨rfl, rfl⟩)
          (orient_almodify_of _ _ _ (fun e => ⟨rfl, rfl⟩) ho)
      by_cases hz : (dropRef e).ref_count = 0
      · have htab :
            ((ConsoleConnectionManager.remove_connection st v1 v2)).table =
              alerase (alerase (alerase
                (almodify (almodify st.table (v1, v2) dropRef) (v2, v1) dropRef)
                (v1, v2)) (v2, v1)) (v2, v1) := by
          unfold ConsoleConnectionManager.remove_connection
          rw [hC]
          simp only []
          rw [if_pos hz]
          split <;> rfl
        rw [htab]
        exact orient_alerase _ _ (orient_alerase _ _ (orient_alerase _ _ hmod))
      · have htab :
            ((ConsoleConnectionManager.remove_connection st v1 v2)).table =
              alerase
                (almodify (almodify st.table (v1, v2) dropRef) (v2, v1) dropRef)
                (v2, v1) := by
          unfold ConsoleConnectionManager.remove_connection
          rw [hC]
          simp only []
          rw [if_neg hz]
        rw [htab]
        exact orient_alerase _ _ hmod

/-- Any sequence of connection-manager calls preserves orientation. -/
theorem orient_runOps (ops : List ConsoleOp) (st : SysState)
    (ho : Orient st.table) : Orient ((runOps st ops).table) := by
  induction ops generalizing st with
  | nil => exact ho
  | cons op rest ih =>
      cases op with
      | establish a b s => exact ih _ (orient_establish st a b s ho)
      | remove a b => exact ih _ (orient_remove st a b ho)

/-- `establish_connection` on a present self-key `(v, v)`: both bumps hit
the same entry; the stored buffers are returned unchanged. -/
theorem establish_reuse_self (st : SysState) (v s : Nat)
    (e : ConsoleConnectionEntry) (h : alget st.table (v, v) = some e) :
    ConsoleConnectionManager.establish_connection st v v s =
      (.ok (e.buf1, e.buf2),
       { st with table :=
           almodify (almodify st.table (v, v) bumpRef) (v, v) bumpRef }) := by
  have hm : alget (almodify (almodify st.table (v, v) bumpRef) (v, v) bumpRef)
      (v, v) = some (bumpRef (bumpRef e)) := by
    rw [alget_almodify, if_pos rfl, alget_almodify, if_pos rfl, h]
    rfl
  unfold ConsoleConnectionManager.establish_connection
  rw [h]
  rw [if_pos (show (some e).isSome = true from rfl)]
  rw [hm]
  rfl

/-- A successful `establish_connection (v1, v2)` on an oriented table
returns a first buffer oriented v1→v2 and a second oriented v2→v1. -/
theorem establish_ok_fields (st : SysState) (v1 v2 s : Nat)
    (b1 b2 : ConsoleBuffer) (st' : SysState)
    (hOr : Orient st.table)
    (hok : ConsoleConnectionManager.establish_connection st v1 v2 s =
      (.ok (b1, b2), st')) :
    b1.owner_vm_id = v1 ∧ b1.peer_vm_id = v2 ∧
    b2.owner_vm_id = v2 ∧ b2.peer_vm_id = v1 := by
  cases hC : alget st.table (v1, v2) with
  | some e =>
      obtain ⟨h1, h2, h3, h4⟩ := hOr v1 v2 e hC
      by_cases hvv : v1 = v2
      · subst hvv
        rw [establish_reuse_self st v1 s e hC] at hok
        have hp := congrArg Prod.fst hok
        simp only [Except.ok.injEq, Prod.mk.injEq] at hp
        obtain ⟨hb1, hb2⟩ := hp
        exact ⟨hb1 ▸ h1, hb1 ▸ h2, hb2 ▸ h3, hb2 ▸ h4⟩
      · rw [establish_reuse st v1 v2 s e hvv hC] at hok
        have hp := congrArg Prod.fst hok
        simp only [Except.ok.injEq, Prod.mk.injEq] at hp
        obtain ⟨hb1, hb2⟩ := hp
        exact ⟨hb1 ▸ h1, hb1 ▸ h2, hb2 ▸ h3, hb2 ▸ h4⟩
  | none =>
      rcases hA1 : ConsoleBuffer.alloc st.heap s v1 v2 with ⟨r1, H1⟩
      cases r1 with
      | error e1 =>
          have hfull : ConsoleConnectionManager.establish_connection st v1 v2 s =
              (.error e1, { st with heap := H1 }) := by
            unfold ConsoleConnectionManager.establish_connection
            rw [hC]
            rw [if_neg (by simp :
              ¬((none : Option ConsoleConnectionEntry).isSome = true))]
            rw [hA1]
          rw [hfull] at hok
          exact absurd (congrArg Prod.fst hok) (by simp)
      | ok B1 =>
          rcases hA2 : ConsoleBuffer.alloc H1 s v2 v1 with ⟨r2, H2⟩
          cases r2 with
          | error e2 =>
              have hfull : ConsoleConnectionManager.establish_connection st v1 v2 s =
                  (.error e2, { st with heap := H2 }) := by
                unfold ConsoleConnectionManager.establish_connection
                rw [hC]
                rw [if_neg (by simp :
                  ¬((none : Option ConsoleConnectionEntry).isSome = true))]
                rw [hA1]
                simp only []
                rw [hA2]
              rw [hfull] at hok
              exact absurd (congrArg Prod.fst hok) (by simp)
          | ok B2 =>
              rw [establish_fresh_general st v1 v2 s B1 B2 H1 H2 hC hA1 hA2] at hok
              have hp := congrArg Prod.fst hok
              simp only [Except.ok.injEq, Prod.mk.injEq] at hp
              obtain ⟨hb1, hb2⟩ := hp
              obtain ⟨o1, p1, -, -, -, -⟩ :=
                ConsoleBuffer.alloc_ok_inv st.heap H1 s v1 v2 B1 hA1
              obtain ⟨o2, p2, -, -, -, -⟩ :=
                ConsoleBuffer.alloc_ok_inv H1 H2 s v2 v1 B2 hA2
              exact ⟨hb1 ▸ o1, hb1 ▸ p1, hb2 ▸ o2, hb2 ▸ p2⟩

/-- `establish_connection` never touches the console-update log. -/
theorem establish_logs (st : SysState) (v1 v2 s : Nat) :
    ((ConsoleConnectionManager.establish_connection st v1 v2 s).2).consoleUpdates =
      st.consoleUpdates := by
  unfold ConsoleConnectionManager.establish_connection
  split
  · split <;> rfl
  · split
    · rfl
    · split <;> rfl

/-- The per-peer shape of a reported buffer pair: first buffer self→peer,
second buffer peer→self. -/
def peerOriented (selfId d : Nat) (p : ConsoleBuffer × ConsoleBuffer) : Prop :=
  p.1.owner_vm_id = selfId ∧ p.1.peer_vm_id = d ∧
  p.2.owner_vm_id = d ∧ p.2.peer_vm_id = selfId

/-- What a successful run of the accumulation loop of the
`HConEstablishConnect` arm produces: one correctly oriented buffer pair per
peer, in list order, with the three accumulator lists extended by exactly
the flattened `(owner, peer, address)` components of those pairs. -/
theorem establishLoop_ok (selfId : Nat) (ids : List Nat) :
    ∀ (st : SysState) (acc res : List Nat × List Nat × List Nat) (st' : SysState),
      Orient st.table →
      establishLoop st selfId ids acc = (.ok res, st') →
      Orient st'.table ∧ st'.consoleUpdates = st.consoleUpdates ∧
      ∃ ps : List (ConsoleBuffer × ConsoleBuffer),
        List.Forall₂ (peerOriented selfId) ids ps ∧
        res.1 = acc.1 ++ (ps.flatMap fun p => [p.1.owner_vm_id, p.2.owner_vm_id]) ∧
        res.2.1 = acc.2.1 ++ (ps.flatMap fun p => [p.1.peer_vm_id, p.2.peer_vm_id]) ∧
        res.2.2 = acc.2.2 ++ (ps.flatMap fun p => [p.1.buffer_base, p.2.buffer_base]) := by
  induction ids with
  | nil =>
      intro st acc res st' hOr hloop
      unfold establishLoop at hloop
      have hres : acc = res := by
        have := congrArg Prod.fst hloop
        simpa using this
      have hst : st = st' := congrArg Prod.snd hloop
      subst hres
      subst hst
      exact ⟨hOr, rfl, [], List.Forall₂.nil, by simp, by simp, by simp⟩
  | cons d rest ih =>
      intro st acc res st' hOr hloop
      unfold establishLoop at hloop
      rcases hE : ConsoleConnectionManager.establish_connection st selfId d 4096
        with ⟨r1, st1⟩
      cases r1 with
      | error e1 =>
          rw [hE] at hloop
          have := congrArg Prod.fst hloop
          simp at this
      | ok bufs =>
          obtain ⟨b1, b2⟩ := bufs
          rw [hE] at hloop
          simp only [] at hloop
          have hOr1 : Orient st1.table := by
            have := orient_establish st selfId d 4096 hOr
            rw [hE] at this
            exact this
          have hupd1 : st1.consoleUpdates = st.consoleUpdates := by
            have := establish_logs st selfId d 4096
            rw [hE] at this
            exact this
          obtain ⟨ho1, hp1, ho2, hp2⟩ :=
            establish_ok_fields st selfId d 4096 b1 b2 st1 hOr hE
          obtain ⟨hOr', hupd', ps, hps, hr1, hr2, hr3⟩ :=
            ih st1 _ res st' hOr1 hloop
          refine ⟨hOr', hupd'.trans hupd1, (b1, b2) :: ps,
            List.Forall₂.cons ⟨ho1, hp1, ho2, hp2⟩ hps, ?_, ?_, ?_⟩
          · rw [hr1]
            simp [List.flatMap_cons, List.append_assoc]
          · rw [hr2]
            simp [List.flatMap_cons, List.append_assoc]
          · rw [hr3]
            simp [List.flatMap_cons, List.append_assoc]

/-- On oriented pairs, flattening the owner, peer and address components
yields the claimed interleavings. -/
theorem forall2_bind_components (selfId : Nat) (ids : List Nat)
    (ps : List (ConsoleBuffer × ConsoleBuffer))
    (h : List.Forall₂ (peerOriented selfId) ids ps) :
    (ps.flatMap fun p => [p.1.owner_vm_id, p.2.owner_vm_id]) =
      ids.flatMap (fun d => [selfId, d]) ∧
    (ps.flatMap fun p => [p.1.peer_vm_id, p.2.peer_vm_id]) =
      ids.flatMap (fun d => [d, selfId]) ∧
    (ps.flatMap fun p => [p.1.buffer_base, p.2.buffer_base]).length =
      2 * ids.length := by
  induction h with
  | nil => simp
  | cons hpd hrest ih =>
      obtain ⟨h1, h2, h3, h4⟩ := hpd
      obtain ⟨ih1, ih2, ih3⟩ := ih
      refine ⟨?_, ?_, ?_⟩
      · simp [List.flatMap_cons, ih1, h1, h2, h3, h4]
      · simp [List.flatMap_cons, ih2, h1, h2, h3, h4]
      · simp [List.flatMap_cons, ih3]
        omega

/-! ## Concrete states for evaluation -/

/-- A concrete heap to evaluate the model on: bump pointer starting at the
first page boundary, 1 GiB capacity, zeroed memory, nothing freed. -/
def initHeap : HeapState :=
  { nextAddr := 4096, capacity := 1073741824, freed := [], mem := fun _ => 0 }

/-- A concrete whole-system state: empty connection table and registry. -/
def initState : SysState :=
  { table := [], heap := initHeap, registry := [], unmapLog := [],
    consoleUpdates := [], consoleRemovals := [], externalOps := [] }

/-! ## Claim theorems -/

/-- **C1** (code bug): the claimed symmetry invariant — `get_buffers (a,b)`
and `get_buffers (b,a)` both present or both absent at every point of every
`establish`/`remove` sequence — is violated by the code: after
`establish_connection (1,2)` twice and `remove_connection (1,2)` once, the
`(1,2)` entry survives with `ref_count = 1` while the `(2,1)` mirror has
been erased by the unconditional final `remove(&(vm2, vm1))` of
`remove_connection`. -/
theorem c1_symmetry_code_bug_eval :
    (ConsoleConnectionManager.get_buffers
      (runOps initState [.establish 1 2 4096, .establish 1 2 4096, .remove 1 2])
      1 2).isSome = true ∧
    ConsoleConnectionManager.get_buffers
      (runOps initState [.establish 1 2 4096, .establish 1 2 4096, .remove 1 2])
      2 1 = none ∧
    (alget (runOps initState
        [.establish 1 2 4096, .establish 1 2 4096, .remove 1 2]).table (1, 2)).map
      (fun e => e.ref_count) = some 1 := by
  refine ⟨by decide, by decide, by decide⟩

/-- **C10** (code bug): for a self-connection the table does hold exactly
one `(a,a)` entry, and each further `establish_connection (a,a)` does
increment its `ref_count` by two (1 → 3 here); but the claim that each
`remove_connection (a,a)` merely decrements the count by two (floored at
zero) fails: one `remove_connection (7,7)` erases the entry outright (the
unconditional final `remove(&(vm2, vm1))` hits the same key) without
deallocating its buffers (`freed` stays empty). -/
theorem c10_self_connection_code_bug_eval :
    ((alget (runOps initState
        [.establish 7 7 4096, .establish 7 7 4096]).table (7, 7)).map
      (fun e => e.ref_count) = some 3) ∧
    alcount (runOps initState
      [.establish 7 7 4096, .establish 7 7 4096]).table (7, 7) = 1 ∧
    ConsoleConnectionManager.get_buffers
      (runOps initState [.establish 7 7 4096, .establish 7 7 4096, .remove 7 7])
      7 7 = none ∧
    (runOps initState
      [.establish 7 7 4096, .establish 7 7 4096, .remove 7 7]).heap.freed = [] := by
  refine ⟨by decide, by decide, by decide, by decide⟩

/-- **C3** (confirmed): for either console hypercall, a count word greater
than four makes the peer-id extraction `args[2..2+count]` read out of the
six-word argument vector — the model's slice is out of bounds, the call
ends in the panic outcome with the state untouched, and in particular it
does not fail with `InvalidInput`. -/
theorem c3_arg_vector_overrun (st : SysState) (selfId : Nat) (args : List Nat)
    (count : Nat) (hlen : args.length = 6) (hcount : args.getD 1 0 = count)
    (hgt : 4 < count) :
    sliceRange args 2 (2 + count) = none ∧
    executeStep st selfId .HConEstablishConnect args = (.panic, st) ∧
    executeStep st selfId .HConUnEstablishConnect args = (.panic, st) := by
  have hcond : ¬ (2 ≤ 2 + count ∧ 2 + count ≤ args.length) := by
    rw [hlen]
    omega
  have hslice : sliceRange args 2 (2 + count) = none := by
    unfold sliceRange
    rw [if_neg hcond]
  refine ⟨hslice, ?_, ?_⟩
  · simp only [executeStep]
    rw [hcount, hslice]
  · simp only [executeStep]
    rw [hcount, hslice]

/-- Witness for C3 at a concrete out-of-range count. -/
theorem c3_arg_vector_overrun_witness :
    sliceRange [0, 5, 9, 9, 9, 9] 2 (2 + 5) = none ∧
    executeStep initState 1 .HConEstablishConnect [0, 5, 9, 9, 9, 9] =
      (.panic, initState) ∧
    executeStep initState 1 .HConUnEstablishConnect [0, 5, 9, 9, 9, 9] =
      (.panic, initState) :=
  c3_arg_vector_overrun initState 1 [0, 5, 9, 9, 9, 9] 5
    (by decide) (by decide) (by decide)

/-- **C5** (confirmed, registry modelled from the spec): when the registry
holds no channel for the calling VM and the key, the `UnpublishChannel`
arm ends in the panic outcome (the `unwrap` on the absent channel) with the
state untouched — never success, never a soft no-op, never an explicit
`NotFound` result. -/
theorem c5_unpublish_missing_fatal (st : SysState) (selfId key : Nat)
    (args : List Nat) (hkey : args.getD 0 0 = key)
    (habs : alget st.registry (selfId, key) = none) :
    executeStep st selfId .HIVCUnPublishChannel args = (.panic, st) := by
  have hup : unpublish_channel st.registry selfId key = none := by
    unfold unpublish_channel
    rw [habs]
  simp only [executeStep]
  rw [hkey, hup]

/-- Witness for C5: empty registry, key 0x10. -/
theorem c5_unpublish_missing_fatal_witness :
    executeStep initState 3 .HIVCUnPublishChannel [16, 0, 0, 0, 0, 0] =
      (.panic, initState) :=
  c5_unpublish_missing_fatal initState 3 16 [16, 0, 0, 0, 0, 0]
    (by decide) (by decide)

/-- **C6** (confirmed, wire values modelled from the spec): an opcode word
the decoder rejects makes the hypercall fail with `InvalidInput` before
`execute` runs: the returned state is exactly the input state — no buffer
allocation, no connection-table mutation, no guest-memory or mapping
operation. -/
theorem c6_opcode_validation (st : SysState) (selfId code : Nat)
    (args : List Nat) (hbad : tryFromCode code = none) :
    handleHyperCall st selfId code args = (.err .InvalidInput, st) := by
  unfold handleHyperCall
  rw [hbad]

/-- Witness for C6 at the unassigned opcode word 4242. -/
theorem c6_opcode_validation_witness :
    handleHyperCall initState 1 4242 [0, 0, 0, 0, 0, 0] =
      (.err .InvalidInput, initState) :=
  c6_opcode_validation initState 1 4242 [0, 0, 0, 0, 0, 0] (by decide)

/-- **C4** (counterexample): the claim says a successful
`ConsoleBuffer::alloc` returns a descriptor whose `buffer_size` field is the
size rounded up to the 4096-byte page granularity; but at requested size 1
the source stores the raw requested size: the descriptor's `buffer_size` is
1 while the page-rounded size (and the length actually allocated) is
4096. -/
theorem c4_buffer_size_field_counterexample :
    (ConsoleBuffer.alloc initHeap 1 5 6).1 =
      .ok { owner_vm_id := 5, peer_vm_id := 6,
            buffer_base := 4096, buffer_size := 1 } ∧
    allocBytesLen 1 = 4096 ∧ (1 : Nat) ≠ 4096 := by
  refine ⟨by rfl, by decide, by decide⟩

/-- **C4** (amended): a successful `ConsoleBuffer::alloc (size, owner,
peer)` zero-fills the whole page-rounded range it allocated and returns a
descriptor whose `owner`/`peer` fields equal the arguments and whose
`buffer_size` field is the requested size exactly as passed (the allocation
length, not the stored field, is the size rounded up to 4096); when the
allocator cannot satisfy the request the call fails with the out-of-memory
error and the heap is returned exactly as it was — no partial allocation is
retained. -/
theorem c4_alloc_postcondition :
    (∀ heap size o p buf h',
      ConsoleBuffer.alloc heap size o p = (.ok buf, h') →
        buf.owner_vm_id = o ∧ buf.peer_vm_id = p ∧ buf.buffer_size = size ∧
        (∀ i, i < allocBytesLen size → h'.mem (buf.buffer_base + i) = 0) ∧
        h'.freed = heap.freed) ∧
    (∀ heap size o p e h',
      ConsoleBuffer.alloc heap size o p = (.error e, h') →
        e = .NoMemory ∧ h' = heap) := by
  constructor
  · intro heap size o p buf h' hok
    obtain ⟨ho, hp, hs, hb, hle, hheap⟩ :=
      ConsoleBuffer.alloc_ok_inv heap h' size o p buf hok
    refine ⟨ho, hp, hs, ?_, ?_⟩
    · intro i hi
      rw [hheap, hb]
      show writeBytes heap.mem heap.nextAddr (allocBytesLen size) 0
        (heap.nextAddr + i) = 0
      unfold writeBytes
      rw [if_pos ⟨by omega, by omega⟩]
    · rw [hheap]
  · intro heap size o p e h' herr
    by_cases hle : heap.nextAddr + allocBytesLen size ≤ heap.capacity
    · rw [ConsoleBuffer.alloc_succ heap size o p hle] at herr
      exact absurd (congrArg Prod.fst herr) (by simp)
    · rw [ConsoleBuffer.alloc_fail heap size o p hle] at herr
      have h1 := congrArg Prod.fst herr
      have h2 := congrArg Prod.snd herr
      simp only at h1 h2
      exact ⟨by cases h1; rfl, h2.symm⟩

/-- **C2** (confirmed): starting from any state in which the pair holds no
connection in either direction and the allocator can serve two buffers,
for distinct VM ids `a ≠ b`: `establish (a,b)` twice then `remove (a,b)`
once leaves `get_buffers (a,b)` present with exactly the buffers (same
non-zero base addresses) of the first establish; a second `remove (a,b)`
makes `get_buffers (a,b)` absent and appends both buffers' page ranges to
the allocator's freed log. -/
theorem c2_refcount_correctness (st0 : SysState) (a b s : Nat) (hab : a ≠ b)
    (hA : alget st0.table (a, b) = none)
    (hpos : 0 < st0.heap.nextAddr)
    (hcap : st0.heap.nextAddr + allocBytesLen s + allocBytesLen s ≤
      st0.heap.capacity) :
    ∃ b1 b2 : ConsoleBuffer,
      (ConsoleConnectionManager.establish_connection st0 a b s).1 = .ok (b1, b2) ∧
      0 < b1.buffer_base ∧ 0 < b2.buffer_base ∧
      ConsoleConnectionManager.get_buffers
        (ConsoleConnectionManager.remove_connection
          (ConsoleConnectionManager.establish_connection
            (ConsoleConnectionManager.establish_connection st0 a b s).2 a b s).2
          a b) a b = some (b1, b2) ∧
      ConsoleConnectionManager.get_buffers
        (ConsoleConnectionManager.remove_connection
          (ConsoleConnectionManager.remove_connection
            (ConsoleConnectionManager.establish_connection
              (ConsoleConnectionManager.establish_connection st0 a b s).2 a b s).2
            a b) a b) a b = none ∧
      (ConsoleConnectionManager.remove_connection
        (ConsoleConnectionManager.remove_connection
          (ConsoleConnectionManager.establish_connection
            (ConsoleConnectionManager.establish_connection st0 a b s).2 a b s).2
          a b) a b).heap.freed =
        st0.heap.freed ++
          [(b1.buffer_base, allocBytesLen b1.buffer_size),
           (b2.buffer_base, allocBytesLen b2.buffer_size)] := by
  have hpne : ((a, b) : Nat × Nat) ≠ (b, a) := pair_ne_swap hab
  have hE1 := establish_fresh st0 a b s hA hcap
  refine ⟨{ owner_vm_id := a, peer_vm_id := b,
            buffer_base := st0.heap.nextAddr, buffer_size := s },
          { owner_vm_id := b, peer_vm_id := a,
            buffer_base := st0.heap.nextAddr + allocBytesLen s, buffer_size := s },
          ?_, hpos, by show 0 < st0.heap.nextAddr + allocBytesLen s; omega,
          ?_, ?_, ?_⟩
  · rw [hE1]
  all_goals {
    have h1tab : alget
        ((ConsoleConnectionManager.establish_connection st0 a b s).2).table (a, b) =
        some { buf1 := { owner_vm_id := a, peer_vm_id := b,
                         buffer_base := st0.heap.nextAddr, buffer_size := s },
               buf2 := { owner_vm_id := b, peer_vm_id := a,
                         buffer_base := st0.heap.nextAddr + allocBytesLen s,
                         buffer_size := s },
               ref_count := 1 } := by
      rw [hE1]
      simp only []
      rw [alget_alinsert, if_neg hpne, alget_alinsert, if_pos rfl]
    have h1freed :
        ((ConsoleConnectionManager.establish_connection st0 a b s).2).heap.freed =
          st0.heap.freed := by
      rw [hE1]
    have hE2 := establish_reuse
      ((ConsoleConnectionManager.establish_connection st0 a b s).2) a b s _ hab h1tab
    have h2tab : alget
        ((ConsoleConnectionManager.establish_connection
          (ConsoleConnectionManager.establish_connection st0 a b s).2 a b s).2).table
        (a, b) =
        some { buf1 := { owner_vm_id := a, peer_vm_id := b,
                         buffer_base := st0.heap.nextAddr, buffer_size := s },
               buf2 := { owner_vm_id := b, peer_vm_id := a,
                         buffer_base := st0.heap.nextAddr + allocBytesLen s,
                         buffer_size := s },
               ref_count := 2 } := by
      rw [hE2]
      simp only []
      rw [alget_almodify, if_neg hpne, alget_almodify, if_pos rfl, h1tab]
      rfl
    have h2freed :
        ((ConsoleConnectionManager.establish_connection
          (ConsoleConnectionManager.establish_connection st0 a b s).2 a b s).2).heap.freed =
          st0.heap.freed := by
      rw [hE2]
      simp only []
      exact h1freed
    have hE3 := remove_pos
      ((ConsoleConnectionManager.establish_connection
        (ConsoleConnectionManager.establish_connection st0 a b s).2 a b s).2)
      a b _ h2tab (by show (2 : Nat) - 1 ≠ 0; decide)
    have h3tab : alget
        ((ConsoleConnectionManager.remove_connection
          (ConsoleConnectionManager.establish_connection
            (ConsoleConnectionManager.establish_connection st0 a b s).2 a b s).2
          a b)).table (a, b) =
        some { buf1 := { owner_vm_id := a, peer_vm_id := b,
                         buffer_base := st0.heap.nextAddr, buffer_size := s },
               buf2 := { owner_vm_id := b, peer_vm_id := a,
                         buffer_base := st0.heap.nextAddr + allocBytesLen s,
                         buffer_size := s },
               ref_count := 1 } := by
      rw [hE3]
      simp only []
      rw [alget_alerase, if_neg hpne, alget_almodify, if_neg hpne,
        alget_almodify, if_pos rfl, h2tab]
      rfl
    have h3freed :
        ((ConsoleConnectionManager.remove_connection
          (ConsoleConnectionManager.establish_connection
            (ConsoleConnectionManager.establish_connection st0 a b s).2 a b s).2
          a b)).heap.freed = st0.heap.freed := by
      rw [hE3]
      simp only []
      exact h2freed
    have hE4 := remove_zero
      ((ConsoleConnectionManager.remove_connection
        (ConsoleConnectionManager.establish_connection
          (ConsoleConnectionManager.establish_connection st0 a b s).2 a b s).2
        a b)) a b _ hab h3tab (by show (1 : Nat) - 1 = 0; rfl)
    first
    | -- `get_buffers` after one remove still returns the original buffers
      (unfold ConsoleConnectionManager.get_buffers
       rw [h3tab]
       rfl)
    | -- `get_buffers` after the second remove is absent
      (unfold ConsoleConnectionManager.get_buffers
       rw [hE4]
       simp only []
       rw [alget_alerase, if_neg hpne, alget_alerase, if_neg hpne,
         alget_alerase, if_pos rfl]
       rfl)
    | -- the freed log gained both page ranges
      (rw [hE4]
       simp only [ConsoleBuffer.dealloc]
       rw [h3freed, List.append_assoc]
       rfl)
  }

/-- Witness for C2: the concrete Scenario A, `establish (1,2,4096)` twice
then `remove (1,2)` twice from the empty initial state. -/
theorem c2_refcount_correctness_witness :
    ∃ b1 b2 : ConsoleBuffer,
      (ConsoleConnectionManager.establish_connection initState 1 2 4096).1 =
        .ok (b1, b2) ∧
      0 < b1.buffer_base ∧ 0 < b2.buffer_base ∧
      ConsoleConnectionManager.get_buffers
        (ConsoleConnectionManager.remove_connection
          (ConsoleConnectionManager.establish_connection
            (ConsoleConnectionManager.establish_connection initState 1 2 4096).2
            1 2 4096).2 1 2) 1 2 = some (b1, b2) ∧
      ConsoleConnectionManager.get_buffers
        (ConsoleConnectionManager.remove_connection
          (ConsoleConnectionManager.remove_connection
            (ConsoleConnectionManager.establish_connection
              (ConsoleConnectionManager.establish_connection initState 1 2 4096).2
              1 2 4096).2 1 2) 1 2) 1 2 = none ∧
      (ConsoleConnectionManager.remove_connection
        (ConsoleConnectionManager.remove_connection
          (ConsoleConnectionManager.establish_connection
            (ConsoleConnectionManager.establish_connection initState 1 2 4096).2
            1 2 4096).2 1 2) 1 2).heap.freed =
        initState.heap.freed ++
          [(b1.buffer_base, allocBytesLen b1.buffer_size),
           (b2.buffer_base, allocBytesLen b2.buffer_size)] :=
  c2_refcount_correctness initState 1 2 4096
    (by decide) (by decide) (by decide) (by decide)

/-- **C7** (confirmed): for a pair with no existing connection,
`establish (a,b)` then `establish (b,a)` returns from the second call the
very buffers of the first call (swapped into the caller's perspective, so
with base addresses identical to the first call's), and the second call
leaves the heap untouched — no new allocation. -/
theorem c7_no_realloc_on_reuse (st0 : SysState) (a b s : Nat) (hab : a ≠ b)
    (hA : alget st0.table (a, b) = none)
    (hcap : st0.heap.nextAddr + allocBytesLen s + allocBytesLen s ≤
      st0.heap.capacity) :
    ∃ b1 b2 : ConsoleBuffer,
      (ConsoleConnectionManager.establish_connection st0 a b s).1 = .ok (b1, b2) ∧
      (ConsoleConnectionManager.establish_connection
        (ConsoleConnectionManager.establish_connection st0 a b s).2 b a s).1 =
        .ok (b2, b1) ∧
      ((ConsoleConnectionManager.establish_connection
        (ConsoleConnectionManager.establish_connection st0 a b s).2 b a s).2).heap =
        ((ConsoleConnectionManager.establish_connection st0 a b s).2).heap := by
  have hE1 := establish_fresh st0 a b s hA hcap
  have h1tabR : alget
      ((ConsoleConnectionManager.establish_connection st0 a b s).2).table (b, a) =
      some { buf1 := { owner_vm_id := b, peer_vm_id := a,
                       buffer_base := st0.heap.nextAddr + allocBytesLen s,
                       buffer_size := s },
             buf2 := { owner_vm_id := a, peer_vm_id := b,
                       buffer_base := st0.heap.nextAddr, buffer_size := s },
             ref_count := 1 } := by
    rw [hE1]
    simp only []
    rw [alget_alinsert, if_pos rfl]
  have hE2 := establish_reuse
    ((ConsoleConnectionManager.establish_connection st0 a b s).2) b a s _
    (Ne.symm hab) h1tabR
  refine ⟨{ owner_vm_id := a, peer_vm_id := b,
            buffer_base := st0.heap.nextAddr, buffer_size := s },
          { owner_vm_id := b, peer_vm_id := a,
            buffer_base := st0.heap.nextAddr + allocBytesLen s, buffer_size := s },
          ?_, ?_, ?_⟩
  · rw [hE1]
  · rw [hE2]
  · rw [hE2]

/-- Witness for C7: `establish (1,2)` then `establish (2,1)` on the empty
initial state. -/
theorem c7_no_realloc_on_reuse_witness :
    ∃ b1 b2 : ConsoleBuffer,
      (ConsoleConnectionManager.establish_connection initState 1 2 4096).1 =
        .ok (b1, b2) ∧
      (ConsoleConnectionManager.establish_connection
        (ConsoleConnectionManager.establish_connection initState 1 2 4096).2
        2 1 4096).1 = .ok (b2, b1) ∧
      ((ConsoleConnectionManager.establish_connection
        (ConsoleConnectionManager.establish_connection initState 1 2 4096).2
        2 1 4096).2).heap =
        ((ConsoleConnectionManager.establish_connection initState 1 2 4096).2).heap :=
  c7_no_realloc_on_reuse initState 1 2 4096 (by decide) (by decide) (by decide)

/-- **C8** (confirmed): a successful `EstablishConsoleConnection` hypercall
appends one batched update whose three lists are, for each peer in list
order, the `(owner, peer, address)` components of the self→peer buffer and
then of the peer→self buffer: the owner list is `[self, d₁, self, d₂, …]`,
the peer list `[d₁, self, d₂, self, …]`, and there are exactly two address
entries per peer (so peer list `[2, 3]` from VM 1 yields exactly the four
triples (1→2), (2→1), (1→3), (3→1) in that order). -/
theorem c8_console_reporting_order (st : SysState) (selfId : Nat)
    (args ids : List Nat) (st' : SysState)
    (hOr : Orient st.table)
    (hids : sliceRange args 2 (2 + args.getD 1 0) = some ids)
    (hexec : executeStep st selfId .HConEstablishConnect args = (.ok 0, st')) :
    ∃ ps : List (ConsoleBuffer × ConsoleBuffer),
      List.Forall₂ (peerOriented selfId) ids ps ∧
      st'.consoleUpdates = st.consoleUpdates ++
        [(ps.flatMap fun p => [p.1.owner_vm_id, p.2.owner_vm_id],
          ps.flatMap fun p => [p.1.peer_vm_id, p.2.peer_vm_id],
          ps.flatMap fun p => [p.1.buffer_base, p.2.buffer_base])] ∧
      (ps.flatMap fun p => [p.1.owner_vm_id, p.2.owner_vm_id]) =
        ids.flatMap (fun d => [selfId, d]) ∧
      (ps.flatMap fun p => [p.1.peer_vm_id, p.2.peer_vm_id]) =
        ids.flatMap (fun d => [d, selfId]) ∧
      (ps.flatMap fun p => [p.1.buffer_base, p.2.buffer_base]).length =
        2 * ids.length := by
  simp only [executeStep] at hexec
  rw [hids] at hexec
  simp only [] at hexec
  rcases hL : establishLoop st selfId ids ([], [], []) with ⟨rl, stl⟩
  cases rl with
  | error e =>
      rw [hL] at hexec
      have := congrArg Prod.fst hexec
      simp at this
  | ok acc =>
      rw [hL] at hexec
      simp only [] at hexec
      have hst' := congrArg Prod.snd hexec
      simp only [] at hst'
      obtain ⟨-, hupd, ps, hps, h1, h2, h3⟩ :=
        establishLoop_ok selfId ids st ([], [], []) acc stl hOr hL
      obtain ⟨ho, hp, hlen⟩ := forall2_bind_components selfId ids ps hps
      refine ⟨ps, hps, ?_, ho, hp, hlen⟩
      have hacc : acc =
          (ps.flatMap fun p => [p.1.owner_vm_id, p.2.owner_vm_id],
           ps.flatMap fun p => [p.1.peer_vm_id, p.2.peer_vm_id],
           ps.flatMap fun p => [p.1.buffer_base, p.2.buffer_base]) := by
        obtain ⟨a1, a2, a3⟩ := acc
        simp only [] at h1 h2 h3
        simp only [List.nil_append] at h1 h2 h3
        rw [h1, h2, h3]
      rw [← hst']
      simp only []
      rw [hupd, hacc]

/-- Witness for C8: Scenario C — `EstablishConsoleConnection` from VM 1
with peer list `[2, 3]` on the empty initial state. -/
theorem c8_console_reporting_order_witness :
    ∃ ps : List (ConsoleBuffer × ConsoleBuffer),
      List.Forall₂ (peerOriented 1) [2, 3] ps ∧
      ((executeStep initState 1 .HConEstablishConnect
        [0, 2, 2, 3, 0, 0]).2).consoleUpdates =
        initState.consoleUpdates ++
          [(ps.flatMap fun p => [p.1.owner_vm_id, p.2.owner_vm_id],
            ps.flatMap fun p => [p.1.peer_vm_id, p.2.peer_vm_id],
            ps.flatMap fun p => [p.1.buffer_base, p.2.buffer_base])] ∧
      (ps.flatMap fun p => [p.1.owner_vm_id, p.2.owner_vm_id]) =
        [2, 3].flatMap (fun d => [1, d]) ∧
      (ps.flatMap fun p => [p.1.peer_vm_id, p.2.peer_vm_id]) =
        [2, 3].flatMap (fun d => [d, 1]) ∧
      (ps.flatMap fun p => [p.1.buffer_base, p.2.buffer_base]).length =
        2 * ([2, 3] : List Nat).length :=
  c8_console_reporting_order initState 1 [0, 2, 2, 3, 0, 0] [2, 3]
    (executeStep initState 1 .HConEstablishConnect [0, 2, 2, 3, 0, 0]).2
    orient_nil (by rfl) (by rfl)

/-- **C9** (confirmed): in every table reachable from the empty table by
`establish_connection`/`remove_connection` calls, an entry stored under key
`(a, b)` has `buf1` owned by `a` with peer `b` and `buf2` owned by `b` with
peer `a`. -/
theorem c9_key_orientation_invariant (st0 : SysState) (h0 : st0.table = [])
    (ops : List ConsoleOp) (a b : Nat) (e : ConsoleConnectionEntry)
    (he : alget (runOps st0 ops).table (a, b) = some e) :
    e.buf1.owner_vm_id = a ∧ e.buf1.peer_vm_id = b ∧
    e.buf2.owner_vm_id = b ∧ e.buf2.peer_vm_id = a :=
  orient_runOps ops st0 (by rw [h0]; exact orient_nil) a b e he

/-- Witness for C9: the entry created by `establish_connection (1, 2)` from
the empty initial state. -/
theorem c9_key_orientation_invariant_witness :
    ({ buf1 := { owner_vm_id := 1, peer_vm_id := 2,
                 buffer_base := 4096, buffer_size := 4096 },
       buf2 := { owner_vm_id := 2, peer_vm_id := 1,
                 buffer_base := 8192, buffer_size := 4096 },
       ref_count := 1 } : ConsoleConnectionEntry).buf1.owner_vm_id = 1 ∧
    ({ buf1 := { owner_vm_id := 1, peer_vm_id := 2,
                 buffer_base := 4096, buffer_size := 4096 },
       buf2 := { owner_vm_id := 2, peer_vm_id := 1,
                 buffer_base := 8192, buffer_size := 4096 },
       ref_count := 1 } : ConsoleConnectionEntry).buf1.peer_vm_id = 2 ∧
    ({ buf1 := { owner_vm_id := 1, peer_vm_id := 2,
                 buffer_base := 4096, buffer_size := 4096 },
       buf2 := { owner_vm_id := 2, peer_vm_id := 1,
                 buffer_base := 8192, buffer_size := 4096 },
       ref_count := 1 } : ConsoleConnectionEntry).buf2.owner_vm_id = 2 ∧
    ({ buf1 := { owner_vm_id := 1, peer_vm_id := 2,
                 buffer_base := 4096, buffer_size := 4096 },
       buf2 := { owner_vm_id := 2, peer_vm_id := 1,
                 buffer_base := 8192, buffer_size := 4096 },
       ref_count := 1 } : ConsoleConnectionEntry).buf2.peer_vm_id = 1 :=
  c9_key_orientation_invariant initState rfl [.establish 1 2 4096] 1 2
    { buf1 := { owner_vm_id := 1, peer_vm_id := 2,
                buffer_base := 4096, buffer_size := 4096 },
      buf2 := { owner_vm_id := 2, peer_vm_id := 1,
                buffer_base := 8192, buffer_size := 4096 },
      ref_count := 1 } (by decide)

/-- Witness for the amended C4: requested size 8192 on the concrete heap;
the descriptor fields and a zero byte inside the allocated range. -/
theorem c4_alloc_postcondition_witness :
    (ConsoleBuffer.alloc initHeap 8192 1 2).1 =
      .ok { owner_vm_id := 1, peer_vm_id := 2,
            buffer_base := 4096, buffer_size := 8192 } ∧
    (ConsoleBuffer.alloc initHeap 8192 1 2).2.mem (4096 + 904) = 0 := by
  have happ := c4_alloc_postcondition.1 initHeap 8192 1 2
    { owner_vm_id := 1, peer_vm_id := 2, buffer_base := 4096, buffer_size := 8192 }
    (ConsoleBuffer.alloc initHeap 8192 1 2).2 (by rfl)
  exact ⟨by rfl, happ.2.2.2.1 904 (by decide)⟩

